import Mathlib

/-!
Verification development for the jarvis repository (two variants:
`src/cli.py`, an OpenAI-compatible CLI chat loop, and `src/main.py`, a
Gemini-backed GUI assistant with a TTS/audio pipeline).

The Python code is shallowly embedded: pure functions become Lean
functions, the stateful chat loops become explicit state passing, and
raised exceptions become `Except.error` values that propagate exactly as
the exception would (up to the nearest handler in the source).
-/

/-! ## Characters used by the JSON model (written via code points) -/

def quoteChar : Char := Char.ofNat 34

def backslashChar : Char := Char.ofNat 92

def lbraceChar : Char := Char.ofNat 123

def rbraceChar : Char := Char.ofNat 125

def colonChar : Char := Char.ofNat 58

def commaChar : Char := Char.ofNat 44

def isWsChar (c : Char) : Bool :=
  c = Char.ofNat 32 ∨ c = Char.ofNat 10 ∨ c = Char.ofNat 9 ∨ c = Char.ofNat 13

/-! ## A minimal model of `json.loads` / `json.dumps`

The repository only ever passes flat JSON objects with string keys and
string values to its tools (the declared schemas have no parameters), so
`json.loads` is modelled on that fragment: a parse failure models the
`json.JSONDecodeError` exception. -/

def skipWs : List Char → List Char
  | c :: cs => if isWsChar c then skipWs cs else c :: cs
  | [] => []

def parseStrBody : List Char → Option (String × List Char)
  | [] => none
  | c :: cs =>
    if c = quoteChar then some ("", cs)
    else if c = backslashChar then none
    else
      match parseStrBody cs with
      | some (s, rest) => some (String.mk (c :: s.data), rest)
      | none => none

def parsePair (input : List Char) : Option ((String × String) × List Char) :=
  match skipWs input with
  | c :: cs =>
    if c = quoteChar then
      match parseStrBody cs with
      | some (k, rest) =>
        match skipWs rest with
        | c2 :: cs2 =>
          if c2 = colonChar then
            match skipWs cs2 with
            | c3 :: cs3 =>
              if c3 = quoteChar then
                match parseStrBody cs3 with
                | some (v, rest2) => some ((k, v), rest2)
                | none => none
              else none
            | [] => none
          else none
        | [] => none
      | none => none
    else none
  | [] => none

def parseMembers : Nat → List Char → Option (List (String × String) × List Char)
  | 0, _ => none
  | fuel + 1, input =>
    match parsePair input with
    | none => none
    | some (kv, rest) =>
      match skipWs rest with
      | c :: cs =>
        if c = commaChar then
          match parseMembers fuel cs with
          | some (kvs, rest2) => some (kv :: kvs, rest2)
          | none => none
        else if c = rbraceChar then some ([kv], cs)
        else none
      | [] => none

def jsonLoads (s : String) : Option (List (String × String)) :=
  match skipWs s.data with
  | c :: cs =>
    if c = lbraceChar then
      match skipWs cs with
      | d :: ds =>
        if d = rbraceChar then
          if (skipWs ds).isEmpty then some [] else none
        else
          match parseMembers (s.length + 1) (d :: ds) with
          | some (kvs, rest) => if (skipWs rest).isEmpty then some kvs else none
          | none => none
      | [] => none
    else none
  | [] => none

def jsonDumps (kvs : List (String × String)) : String :=
  let body := String.intercalate ", "
    (kvs.map (fun kv => "\x22" ++ kv.fst ++ "\x22: \x22" ++ kv.snd ++ "\x22"))
  "\x7b" ++ body ++ "\x7d"

/-! ## Dates

`datetime.now(ZoneInfo(...))` is an external effect; the embedding takes
the current wall-clock reading as an explicit `PyDateTime` argument
carrying the already-formatted components the source interpolates. -/

structure PyDateTime where
  weekday : String
  day : Nat
  monthName : String
  year : Nat
  hms : String
  iso : String
deriving DecidableEq, Repr

def someNow : PyDateTime :=
  { weekday := "Monday", day := 6, monthName := "October", year := 2025
    hms := "10:00:00", iso := "2025-10-06T10:00:00+07:00" }

/-! ## Tool implementations

`get_current_datetime` is `src/cli.py` lines 29-37; `get_today_date` is
`src/main.py` lines 66-75.  Both hardcode the timezone by overwriting it
inside the body. -/

def get_current_datetime (now : PyDateTime) : List (String × String) :=
  let tz := "Asia/Jakarta"
  let nice := "It is " ++ now.weekday ++ ", " ++ toString now.day ++ " "
      ++ now.monthName ++ " " ++ toString now.year ++ ", " ++ now.hms
      ++ " (" ++ tz ++ ")"
  [("text", nice), ("iso", now.iso), ("timezone", tz)]

def get_today_date (now : PyDateTime) (timezone : String) : List (String × String) :=
  let timezone := "Asia/Jakarta"
  let nice := "Today is " ++ now.weekday ++ ", " ++ toString now.day ++ " "
      ++ now.monthName ++ " " ++ toString now.year
  [("text", nice), ("iso", now.iso), ("timezone", timezone)]

/-- Python keyword-argument binding for `self.get_today_date(**(args or {}))`
(`src/main.py` line 96): the only declared parameter of the function is
`timezone`, so a payload key other than `timezone` raises `TypeError`. -/
def call_get_today_date (now : PyDateTime) (args : List (String × String)) :
    Except String (List (String × String)) :=
  if args.all (fun kv => kv.fst == "timezone") then
    .ok (get_today_date now (((args.lookup "timezone").getD "Asia/Jakarta")))
  else
    .error "get_today_date() got an unexpected keyword argument"

/-- `src/cli.py` lines 39-42: `dispatch_tool` ignores the parsed
arguments for the known tool and raises `ValueError` on any other name. -/
def dispatch_tool (now : PyDateTime) (name : String)
    (args : List (String × String)) : Except String (List (String × String)) :=
  if name == "get_current_datetime" then .ok (get_current_datetime now)
  else .error ("Unknown tool: " ++ name)

/-- `src/main.py` lines 94-97: `_dispatch_tool` forwards the payload via
`**` to `get_today_date` and raises `ValueError` on any other name. -/
def main_dispatch_tool (now : PyDateTime) (name : String)
    (args : List (String × String)) : Except String (List (String × String)) :=
  if name == "get_today_date" then call_get_today_date now args
  else .error ("Unknown tool: " ++ name)

/-! ## CLI data model (`src/cli.py`) -/

inductive Role where
  | system
  | user
  | assistant
  | tool
deriving DecidableEq, Repr

structure ToolCallReq where
  id : String
  name : String
  arguments : String
deriving DecidableEq, Repr

structure Message where
  role : Role
  content : Option String := none
  tool_calls : List ToolCallReq := []
  tool_call_id : Option String := none
deriving DecidableEq, Repr

def userMessage (text : String) : Message :=
  { role := .user, content := some text }

def toolResultMessage (callId content : String) : Message :=
  { role := .tool, content := some content, tool_call_id := some callId }

/-- The model client: given the history, either a response message or a
raised exception (network failure etc.). -/
def ModelFn : Type := List Message → Except String Message

def MAX_TOOL_ROUNDS : Nat := 3

def cliFallback : String := "Sorry Sir, I couldn\x27t complete that request."

def dropLeadingWs : List Char → List Char
  | [] => []
  | c :: cs => if isWsChar c then dropLeadingWs cs else c :: cs

/-- Python `str.strip()` on the ASCII fragment the code handles: drop
leading and trailing whitespace. -/
def pyStrip (s : String) : String :=
  String.mk ((dropLeadingWs (dropLeadingWs s.data).reverse).reverse)

/-- Python `str.lower()` (`user_input.lower()` in `src/cli.py` line 75),
on the ASCII fragment. -/
def pyLower (s : String) : String :=
  String.mk (s.data.map Char.toLower)

/-- Outcome of executing the `tool_calls` list of one assistant message
(`src/cli.py` lines 98-111): the extended history, the first raised
exception if any (which aborts the remaining calls), and how many tool
invocations completed. -/
structure ExecOut where
  hist : List Message
  error : Option String
  invocations : Nat
deriving DecidableEq, Repr

def execToolCalls (now : PyDateTime) (hist : List Message) :
    List ToolCallReq → ExecOut
  | [] => ⟨hist, none, 0⟩
  | tc :: rest =>
    let argStr := if tc.arguments = "" then "\x7b\x7d" else tc.arguments
    match jsonLoads argStr with
    | none => ⟨hist, some "json decode error", 0⟩
    | some args =>
      match dispatch_tool now tc.name args with
      | .error e => ⟨hist, some e, 0⟩
      | .ok res =>
        let out := execToolCalls now
          (hist ++ [toolResultMessage tc.id (jsonDumps res)]) rest
        ⟨out.hist, out.error, out.invocations + 1⟩

instance {ε α : Type} [DecidableEq ε] [DecidableEq α] : DecidableEq (Except ε α) := by
  intro a b
  cases a with
  | error e =>
    cases b with
    | error f => exact decidable_of_iff (e = f) (by simp)
    | ok y => exact .isFalse (by simp)
  | ok x =>
    cases b with
    | error f => exact .isFalse (by simp)
    | ok y => exact decidable_of_iff (x = y) (by simp)

/-- Outcome of the bounded tool loop (`src/cli.py` lines 83-116): final
history, result (`.error e` models an exception escaping the loop,
`.ok none` models the round bound being exhausted, `.ok (some t)` the
stripped final text), the number of model calls made, the number of
completed tool invocations, and the log of histories passed to the model
client. -/
structure LoopOut where
  hist : List Message
  result : Except String (Option String)
  rounds : Nat
  invocations : Nat
  calls : List (List Message)
deriving DecidableEq, Repr

def toolLoop (now : PyDateTime) (model : ModelFn) :
    List Message → Nat → LoopOut
  | hist, 0 => ⟨hist, .ok none, 0, 0, []⟩
  | hist, fuel + 1 =>
    match model hist with
    | .error e => ⟨hist, .error e, 1, 0, [hist]⟩
    | .ok msg =>
      let hist2 := hist ++ [msg]
      if msg.tool_calls.isEmpty then
        ⟨hist2, .ok (some (pyStrip (msg.content.getD ""))), 1, 0, [hist]⟩
      else
        let ex := execToolCalls now hist2 msg.tool_calls
        match ex.error with
        | some e => ⟨ex.hist, .error e, 1, ex.invocations, [hist]⟩
        | none =>
          let r := toolLoop now model ex.hist fuel
          ⟨r.hist, r.result, r.rounds + 1, ex.invocations + r.invocations,
            hist :: r.calls⟩

/-- One whole turn of the CLI chat loop body after the exit check
(`src/cli.py` lines 79-121 together with the `except` arm at line 126):
`delivered` is the line printed to the user, `errored` records whether an
exception escaped to the outer handler. -/
structure TurnOut where
  hist : List Message
  delivered : String
  errored : Bool
  rounds : Nat
  invocations : Nat
  calls : List (List Message)
deriving DecidableEq, Repr

def runTurnCLI (now : PyDateTime) (model : ModelFn) (hist : List Message)
    (userText : String) : TurnOut :=
  let hist1 := hist ++ [userMessage userText]
  let out := toolLoop now model hist1 MAX_TOOL_ROUNDS
  match out.result with
  | .error e =>
    ⟨out.hist, "An error occurred: " ++ e, true, out.rounds, out.invocations,
      out.calls⟩
  | .ok ft =>
    let finalText := ft.getD ""
    let finalText := if finalText = "" then cliFallback else finalText
    ⟨out.hist, finalText, false, out.rounds, out.invocations, out.calls⟩

/-- One iteration of the CLI `while True` loop (`src/cli.py` lines
71-121), exit check included.  On `"exit"` (case-insensitively) the loop
breaks before touching history or the model. -/
structure StepOut where
  hist : List Message
  terminated : Bool
  modelCalls : Nat
  printed : Option String
  calls : List (List Message)
deriving DecidableEq, Repr

def chatStep (now : PyDateTime) (model : ModelFn) (hist : List Message)
    (input : String) : StepOut :=
  if pyLower input = "exit" then
    ⟨hist, true, 0, none, []⟩
  else
    let t := runTurnCLI now model hist input
    ⟨t.hist, false, t.rounds, some t.delivered, t.calls⟩

/-- A whole CLI session over a list of inputs, logging every history that
was passed to the model client. -/
structure SessionOut where
  hist : List Message
  calls : List (List Message)
deriving DecidableEq, Repr

def runSession (now : PyDateTime) (model : ModelFn) :
    List Message → List String → SessionOut
  | hist, [] => ⟨hist, []⟩
  | hist, input :: rest =>
    let s := chatStep now model hist input
    if s.terminated then ⟨s.hist, []⟩
    else
      let r := runSession now model s.hist rest
      ⟨r.hist, s.calls ++ r.calls⟩

/-! ## GUI data model (`src/main.py`, `AI_Core.process_text_input_queue`)

Gemini contents: a `Content` has a role string and parts; a part carries
optional text, an optional function call, or an optional function
response (built by `types.Part.from_function_response`, which correlates
by function *name*). -/

structure FunctionCall where
  name : String
  args : List (String × String)
deriving DecidableEq, Repr

structure GPart where
  text : Option String := none
  function_call : Option FunctionCall := none
  function_response : Option (String × List (String × String)) := none
deriving DecidableEq, Repr

structure GContent where
  role : String
  parts : List GPart
deriving DecidableEq, Repr

def GModelFn : Type := List GContent → Except String GContent

def gUserContent (text : String) : GContent :=
  ⟨"user", [{ text := some text }]⟩

def gFunctionResponseContent (name : String)
    (response : List (String × String)) : GContent :=
  ⟨"user", [{ function_response := some (name, response) }]⟩

/-- `function_calls = [fc for p in parts if p.function_call]`
(`src/main.py` lines 139-143). -/
def gFunctionCalls (parts : List GPart) : List FunctionCall :=
  parts.filterMap (·.function_call)

/-- `texts = [p.text for p in parts if getattr(p, "text", None)]` then
`"".join(texts)` (`src/main.py` line 147-148): only truthy (non-`None`,
non-empty) texts are collected. -/
def gJoinTexts (parts : List GPart) : String :=
  String.join (parts.filterMap (fun p =>
    match p.text with
    | some t => if t = "" then none else some t
    | none => none))

def mainFallback : String := "Sorry Sir, I\x27m having trouble fetching that right now."

/-- Executing the collected function calls (`src/main.py` lines 152-167):
each successful call appends a user-role `Content` holding a function
response correlated by name; a raised exception aborts the remainder. -/
structure GExecOut where
  hist : List GContent
  error : Option String
  invocations : Nat
deriving DecidableEq, Repr

def gExecTools (now : PyDateTime) (hist : List GContent) :
    List FunctionCall → GExecOut
  | [] => ⟨hist, none, 0⟩
  | fc :: rest =>
    match main_dispatch_tool now fc.name fc.args with
    | .error e => ⟨hist, some e, 0⟩
    | .ok res =>
      let out := gExecTools now
        (hist ++ [gFunctionResponseContent fc.name res]) rest
      ⟨out.hist, out.error, out.invocations + 1⟩

structure GLoopOut where
  hist : List GContent
  result : Except String (Option String)
  rounds : Nat
  invocations : Nat
deriving DecidableEq, Repr

/-- The bounded tool loop `for _ in range(3)` (`src/main.py` lines
123-167). -/
def gLoop (now : PyDateTime) (gmodel : GModelFn) :
    List GContent → Nat → GLoopOut
  | hist, 0 => ⟨hist, .ok none, 0, 0⟩
  | hist, fuel + 1 =>
    match gmodel hist with
    | .error e => ⟨hist, .error e, 1, 0⟩
    | .ok content =>
      let hist2 := hist ++ [content]
      if (gFunctionCalls content.parts).isEmpty then
        ⟨hist2, .ok (some (pyStrip (gJoinTexts content.parts))), 1, 0⟩
      else
        let ex := gExecTools now hist2 (gFunctionCalls content.parts)
        match ex.error with
        | some e => ⟨ex.hist, .error e, 1, ex.invocations⟩
        | none =>
          let r := gLoop now gmodel ex.hist fuel
          ⟨r.hist, r.result, r.rounds + 1, ex.invocations + r.invocations⟩

/-- One dequeued text of `process_text_input_queue` (`src/main.py` lines
114-185), queue effects aside: `emitted` is the string passed to
`text_received.emit`, `errored` whether the `except` arm ran. -/
structure GTurnOut where
  hist : List GContent
  emitted : String
  errored : Bool
  rounds : Nat
  invocations : Nat
deriving DecidableEq, Repr

def processTurnMain (now : PyDateTime) (gmodel : GModelFn)
    (hist : List GContent) (text : String) : GTurnOut :=
  let hist1 := hist ++ [gUserContent text]
  let out := gLoop now gmodel hist1 3
  match out.result with
  | .error e =>
    ⟨out.hist, "Error generating response: " ++ e, true, out.rounds,
      out.invocations⟩
  | .ok ft =>
    let finalText := ft.getD ""
    let finalText := if finalText = "" then mainFallback else finalText
    ⟨out.hist, finalText, false, out.rounds, out.invocations⟩

/-! ## Dangling tool calls (`src/cli.py` history shape)

`danglingFreeB hist` holds when every tool-call request carried by a
message of `hist` is answered by a later tool-role message with the same
`tool_call_id`. -/

def isToolResultFor (cid : String) (m : Message) : Bool :=
  m.role == Role.tool && m.tool_call_id == some cid

def danglingFreeB : List Message → Bool
  | [] => true
  | m :: rest =>
    m.tool_calls.all (fun tc => rest.any (isToolResultFor tc.id))
      && danglingFreeB rest

/-- A tool-call request the CLI dispatch completes without raising: the
registered name, and an argument string `json.loads` accepts. -/
def goodToolCall (tc : ToolCallReq) : Bool :=
  tc.name == "get_current_datetime"
    && (jsonLoads (if tc.arguments = "" then "\x7b\x7d" else tc.arguments)).isSome

/-- A model client all of whose tool-call requests are completable. -/
def GoodModel (model : ModelFn) : Prop :=
  ∀ h msg, model h = .ok msg → ∀ tc ∈ msg.tool_calls, goodToolCall tc = true

/-- A model client that answers every call with at least one completable
tool-call request (the "fixture model that always requests a tool call"). -/
def AlwaysToolModel (model : ModelFn) : Prop :=
  ∀ h, ∃ msg, model h = .ok msg ∧ msg.tool_calls ≠ []
    ∧ ∀ tc ∈ msg.tool_calls, goodToolCall tc = true

/-! ## The audio pipeline of `src/main.py` as a transition system

Three cooperating asyncio tasks share queues:
`process_text_input_queue` (the processor), `tts`, and `play_audio`.
Frames carry a ghost tag `(turn, seq)` identifying the accepted turn that
produced them and their emission index, mirroring the specification idea of a
"sequence-tagged fixture".  Each constructor of `PipeStep` is one
scheduler step at an await boundary of the source:

* `accept`: `text = await self.text_input_queue.get()` followed by the
  drain loop of lines 110-112, which contains no `await` and therefore
  runs atomically under the cooperative scheduler;
* `finishTurn`: the model loop completed and lines 176-177 put the final
  text and the `None` sentinel on the TTS queue;
* `finishTurnError`: the `except` arm ran (lines 181-185), which puts
  nothing on the TTS queue;
* `ttsTakeText` / `ttsTakeNone`: `text_chunk = await self.response_queue_tts.get()`
  (line 193), opening a streaming session only for a non-`None` chunk;
* `ttsEmit`: the `listen` coroutine decodes one audio payload and puts it
  on the player queue (line 211);
* `ttsFinish`: the session ends (`isFinal`, line 213, or the connection
  closes, line 214);
* `play`: `bytestream = await self.audio_in_queue_player.get()` and the
  device write (lines 244-246). -/

structure PipeState where
  pending : List Nat
  ttsQ : List (Option Nat)
  audioQ : List (Nat × Nat)
  played : List (Nat × Nat)
  procBusy : Option Nat
  ttsSession : Option Nat
  emitCount : Nat
deriving DecidableEq, Repr

def pipeInit (n : Nat) : PipeState :=
  ⟨List.range n, [], [], [], none, none, 0⟩

def acceptState (s : PipeState) (k : Nat) (rest : List Nat) : PipeState :=
  { s with pending := rest, ttsQ := [], audioQ := [], procBusy := some k }

inductive PipeStep : PipeState → PipeState → Prop where
  | accept (s : PipeState) (k : Nat) (rest : List Nat)
      (hp : s.pending = k :: rest) (hb : s.procBusy = none) :
      PipeStep s (acceptState s k rest)
  | finishTurn (s : PipeState) (k : Nat) (hb : s.procBusy = some k) :
      PipeStep s { s with ttsQ := s.ttsQ ++ [some k, none], procBusy := none }
  | finishTurnError (s : PipeState) (k : Nat) (hb : s.procBusy = some k) :
      PipeStep s { s with procBusy := none }
  | ttsTakeText (s : PipeState) (k : Nat) (rest : List (Option Nat))
      (hs : s.ttsSession = none) (hq : s.ttsQ = some k :: rest) :
      PipeStep s { s with ttsQ := rest, ttsSession := some k, emitCount := 0 }
  | ttsTakeNone (s : PipeState) (rest : List (Option Nat))
      (hs : s.ttsSession = none) (hq : s.ttsQ = none :: rest) :
      PipeStep s { s with ttsQ := rest }
  | ttsEmit (s : PipeState) (k : Nat) (hs : s.ttsSession = some k) :
      PipeStep s
        { s with
          audioQ := s.audioQ ++ [(k, s.emitCount)]
          emitCount := s.emitCount + 1 }
  | ttsFinish (s : PipeState) (k : Nat) (hs : s.ttsSession = some k) :
      PipeStep s { s with ttsSession := none }
  | play (s : PipeState) (f : Nat × Nat) (rest : List (Nat × Nat))
      (hq : s.audioQ = f :: rest) :
      PipeStep s { s with audioQ := rest, played := s.played ++ [f] }

inductive PipeReach (n : Nat) : PipeState → Prop where
  | init : PipeReach n (pipeInit n)
  | step (s s' : PipeState) (h : PipeReach n s) (hs : PipeStep s s') :
      PipeReach n s'

def sessionList (s : PipeState) : List Nat :=
  match s.ttsSession with
  | some k => [k]
  | none => []

def ttsQTurns (s : PipeState) : List Nat :=
  s.ttsQ.filterMap id

def frameTurns (s : PipeState) : List Nat :=
  (s.played ++ s.audioQ).map Prod.fst

def downstreamTurns (s : PipeState) : List Nat :=
  frameTurns s ++ ttsQTurns s ++ sessionList s

/-! ## Concrete fixtures used by the claim instances -/

def cliSystemMessage : Message :=
  { role := .system
    content := some ("Your name is Jarvis. You have a joking sarcastic personality and are an AI designed "
      ++ "to help me with technical knowledge as well as day to day task. Address me as Sir "
      ++ "and speak in a British accent. Also keep replies short.\n\n"
      ++ "Tool use:\n"
      ++ "- If the user asks for the current date or time (or \x27today\x27), call get_current_datetime.\n") }

def bogusMsg : Message :=
  { role := .assistant, tool_calls := [⟨"call_9", "make_tea", "\x7b\x7d"⟩] }

/-- A model that requests an unregistered tool on every round. -/
def bogusToolModel : ModelFn := fun _ => .ok bogusMsg

def gBogusContent : GContent :=
  ⟨"model", [{ function_call := some ⟨"make_tea", []⟩ }]⟩

def gBogusModel : GModelFn := fun _ => .ok gBogusContent

def spacedMsg : Message := { role := .assistant, content := some " hi " }

def spacedModel : ModelFn := fun _ => .ok spacedMsg

def dateToolCallMsg : Message :=
  { role := .assistant, tool_calls := [⟨"call_1", "get_current_datetime", "\x7b\x7d"⟩] }

def teatimeMsg : Message :=
  { role := .assistant, content := some "It\x27s teatime, Sir." }

/-- The fixture model of the teatime scenario: a date/time tool call on
the first round, the final text once a tool result is in the history. -/
def teatimeModel : ModelFn := fun h =>
  if h.any (fun m => m.role == Role.tool) then .ok teatimeMsg
  else .ok dateToolCallMsg

def alwaysToolMsg : Message :=
  { role := .assistant, tool_calls := [⟨"call_7", "get_current_datetime", ""⟩] }

/-- A model that requests the registered tool on every round. -/
def alwaysToolModel : ModelFn := fun _ => .ok alwaysToolMsg

/-! ## Helper lemmas -/

theorem string_data_append (a b : String) : (a ++ b).data = a.data ++ b.data := by
  cases a
  cases b
  rfl

theorem string_append_ne_empty (a b : String) (h : a.data ≠ []) : a ++ b ≠ "" := by
  intro hab
  have hd := string_data_append a b
  rw [hab] at hd
  have hnil : a.data ++ b.data = [] := hd.symm
  exact h (List.append_eq_nil.mp hnil).1

theorem execToolCalls_extend (now : PyDateTime) :
    ∀ (tcs : List ToolCallReq) (hist : List Message),
      ∃ t, (execToolCalls now hist tcs).hist = hist ++ t := by
  intro tcs
  induction tcs with
  | nil =>
    intro hist
    exact ⟨[], by simp [execToolCalls]⟩
  | cons tc rest ih =>
    intro hist
    cases hj : jsonLoads (if tc.arguments = "" then "\x7b\x7d" else tc.arguments) with
    | none => exact ⟨[], by simp [execToolCalls, hj]⟩
    | some args =>
      cases hd : dispatch_tool now tc.name args with
      | error e => exact ⟨[], by simp [execToolCalls, hj, hd]⟩
      | ok res =>
        obtain ⟨t, ht⟩ := ih (hist ++ [toolResultMessage tc.id (jsonDumps res)])
        refine ⟨toolResultMessage tc.id (jsonDumps res) :: t, ?_⟩
        simp only [execToolCalls, hj, hd]
        simpa [List.append_assoc] using ht

theorem execToolCalls_good (now : PyDateTime) :
    ∀ (tcs : List ToolCallReq) (hist : List Message),
      (∀ tc ∈ tcs, goodToolCall tc = true) →
      execToolCalls now hist tcs =
        ⟨hist ++ tcs.map (fun tc =>
            toolResultMessage tc.id (jsonDumps (get_current_datetime now))),
          none, tcs.length⟩ := by
  intro tcs
  induction tcs with
  | nil =>
    intro hist _
    simp [execToolCalls]
  | cons tc rest ih =>
    intro hist hgood
    have htc : goodToolCall tc = true := hgood tc (by simp)
    rw [goodToolCall, Bool.and_eq_true] at htc
    obtain ⟨hname, hsome⟩ := htc
    obtain ⟨args, hargs⟩ := Option.isSome_iff_exists.mp hsome
    have hdisp : dispatch_tool now tc.name args = .ok (get_current_datetime now) := by
      simp [dispatch_tool, hname]
    simp only [execToolCalls, hargs, hdisp]
    rw [ih (hist ++ [toolResultMessage tc.id (jsonDumps (get_current_datetime now))])
      (fun tc2 h2 => hgood tc2 (by simp [h2]))]
    simp [List.append_assoc]

theorem toolLoop_extend (now : PyDateTime) (model : ModelFn) :
    ∀ (fuel : Nat) (hist : List Message),
      ∃ t, (toolLoop now model hist fuel).hist = hist ++ t := by
  intro fuel
  induction fuel with
  | zero =>
    intro hist
    exact ⟨[], by simp [toolLoop]⟩
  | succ n ih =>
    intro hist
    cases hm : model hist with
    | error e => exact ⟨[], by simp [toolLoop, hm]⟩
    | ok msg =>
      cases hc : msg.tool_calls.isEmpty with
      | true => exact ⟨[msg], by simp [toolLoop, hm, hc]⟩
      | false =>
        obtain ⟨t1, ht1⟩ := execToolCalls_extend now msg.tool_calls (hist ++ [msg])
        cases he : (execToolCalls now (hist ++ [msg]) msg.tool_calls).error with
        | some e =>
          refine ⟨msg :: t1, ?_⟩
          simp only [toolLoop, hm, hc, Bool.false_eq_true, if_false, he]
          simpa [List.append_assoc] using ht1
        | none =>
          obtain ⟨t2, ht2⟩ := ih (execToolCalls now (hist ++ [msg]) msg.tool_calls).hist
          refine ⟨msg :: (t1 ++ t2), ?_⟩
          simp only [toolLoop, hm, hc, Bool.false_eq_true, if_false, he]
          rw [ht1] at ht2
          rw [ht1]
          simpa [List.append_assoc] using ht2

theorem toolLoop_rounds_le (now : PyDateTime) (model : ModelFn) :
    ∀ (fuel : Nat) (hist : List Message),
      (toolLoop now model hist fuel).rounds ≤ fuel := by
  intro fuel
  induction fuel with
  | zero =>
    intro hist
    simp [toolLoop]
  | succ n ih =>
    intro hist
    cases hm : model hist with
    | error e => simp [toolLoop, hm]
    | ok msg =>
      cases hc : msg.tool_calls.isEmpty with
      | true => simp [toolLoop, hm, hc]
      | false =>
        cases he : (execToolCalls now (hist ++ [msg]) msg.tool_calls).error with
        | some e => simp [toolLoop, hm, hc, he]
        | none =>
          simp only [toolLoop, hm, hc, Bool.false_eq_true, if_false, he]
          have := ih (execToolCalls now (hist ++ [msg]) msg.tool_calls).hist
          omega

theorem toolLoop_always (now : PyDateTime) (model : ModelFn)
    (h : AlwaysToolModel model) :
    ∀ (fuel : Nat) (hist : List Message),
      (toolLoop now model hist fuel).result = .ok none ∧
      (toolLoop now model hist fuel).rounds = fuel ∧
      (toolLoop now model hist fuel).calls.length = fuel := by
  intro fuel
  induction fuel with
  | zero =>
    intro hist
    exact ⟨rfl, rfl, rfl⟩
  | succ n ih =>
    intro hist
    obtain ⟨msg, hm, hne, hgood⟩ := h hist
    unfold toolLoop
    rw [hm]
    have hc : msg.tool_calls.isEmpty = false := by
      cases hmt : msg.tool_calls with
      | nil => exact absurd hmt hne
      | cons a l => rfl
    simp only [hc, Bool.false_eq_true, if_false]
    rw [execToolCalls_good now msg.tool_calls (hist ++ [msg]) hgood]
    obtain ⟨h1, h2, h3⟩ := ih ((hist ++ [msg]) ++ msg.tool_calls.map (fun tc =>
      toolResultMessage tc.id (jsonDumps (get_current_datetime now))))
    exact ⟨h1, by simpa using h2, by simpa using h3⟩

theorem danglingFreeB_append :
    ∀ (h t : List Message), danglingFreeB h = true → danglingFreeB t = true →
      danglingFreeB (h ++ t) = true := by
  intro h
  induction h with
  | nil => intro t _ ht; simpa using ht
  | cons m rest ih =>
    intro t hm ht
    rw [danglingFreeB, Bool.and_eq_true] at hm
    obtain ⟨hall, hrest⟩ := hm
    rw [List.cons_append, danglingFreeB, Bool.and_eq_true]
    refine ⟨?_, ih t hrest ht⟩
    rw [List.all_eq_true] at hall ⊢
    intro tc htc
    have := hall tc htc
    rw [List.any_eq_true] at this ⊢
    obtain ⟨x, hx, hxr⟩ := this
    exact ⟨x, List.mem_append_left t hx, hxr⟩

theorem danglingFreeB_noCalls :
    ∀ (l : List Message), (∀ m ∈ l, m.tool_calls = []) →
      danglingFreeB l = true := by
  intro l
  induction l with
  | nil => intro _; rfl
  | cons m rest ih =>
    intro hm
    rw [danglingFreeB, Bool.and_eq_true]
    constructor
    · rw [hm m (by simp)]
      rfl
    · exact ih (fun m2 h2 => hm m2 (by simp [h2]))

theorem danglingFreeB_block (now : PyDateTime) (msg : Message) :
    danglingFreeB (msg :: msg.tool_calls.map (fun tc =>
      toolResultMessage tc.id (jsonDumps (get_current_datetime now)))) = true := by
  rw [danglingFreeB, Bool.and_eq_true]
  constructor
  · rw [List.all_eq_true]
    intro tc htc
    rw [List.any_eq_true]
    refine ⟨toolResultMessage tc.id (jsonDumps (get_current_datetime now)),
      List.mem_map_of_mem _ htc, ?_⟩
    simp [isToolResultFor, toolResultMessage]
  · apply danglingFreeB_noCalls
    intro m hm
    rw [List.mem_map] at hm
    obtain ⟨tc, _, htc⟩ := hm
    rw [← htc]
    rfl

theorem toolLoop_danglingFree (now : PyDateTime) (model : ModelFn)
    (hG : GoodModel model) :
    ∀ (fuel : Nat) (hist : List Message), danglingFreeB hist = true →
      ((toolLoop now model hist fuel).calls.all danglingFreeB = true ∧
        danglingFreeB (toolLoop now model hist fuel).hist = true) := by
  intro fuel
  induction fuel with
  | zero =>
    intro hist hh
    exact ⟨rfl, hh⟩
  | succ n ih =>
    intro hist hh
    cases hm : model hist with
    | error e =>
      constructor
      · simp [toolLoop, hm, hh]
      · simpa [toolLoop, hm] using hh
    | ok msg =>
      cases hc : msg.tool_calls.isEmpty with
      | true =>
        have hmt : msg.tool_calls = [] := by
          cases hmt : msg.tool_calls with
          | nil => rfl
          | cons a l => rw [hmt] at hc; exact absurd hc (by simp)
        have hh2 : danglingFreeB (hist ++ [msg]) = true :=
          danglingFreeB_append hist [msg] hh
            (danglingFreeB_noCalls [msg] (by simpa using hmt))
        constructor
        · simp [toolLoop, hm, hc, hh]
        · simpa [toolLoop, hm, hc] using hh2
      | false =>
        have hgood : ∀ tc ∈ msg.tool_calls, goodToolCall tc = true :=
          hG hist msg hm
        have hexec := execToolCalls_good now msg.tool_calls (hist ++ [msg]) hgood
        have hh3 : danglingFreeB ((hist ++ [msg]) ++ msg.tool_calls.map (fun tc =>
            toolResultMessage tc.id (jsonDumps (get_current_datetime now)))) = true := by
          rw [List.append_assoc]
          exact danglingFreeB_append hist _ hh (danglingFreeB_block now msg)
        obtain ⟨ihc, ihh⟩ := ih ((hist ++ [msg]) ++ msg.tool_calls.map (fun tc =>
          toolResultMessage tc.id (jsonDumps (get_current_datetime now)))) hh3
        constructor
        · simp only [toolLoop, hm, hc, Bool.false_eq_true, if_false, hexec]
          simp only [List.all_cons, Bool.and_eq_true]
          exact ⟨hh, ihc⟩
        · simp only [toolLoop, hm, hc, Bool.false_eq_true, if_false, hexec]
          exact ihh

theorem runTurnCLI_calls (now : PyDateTime) (model : ModelFn)
    (hist : List Message) (userText : String) :
    (runTurnCLI now model hist userText).calls =
      (toolLoop now model (hist ++ [userMessage userText]) MAX_TOOL_ROUNDS).calls := by
  simp only [runTurnCLI]
  cases (toolLoop now model (hist ++ [userMessage userText]) MAX_TOOL_ROUNDS).result <;> rfl

theorem runTurnCLI_hist (now : PyDateTime) (model : ModelFn)
    (hist : List Message) (userText : String) :
    (runTurnCLI now model hist userText).hist =
      (toolLoop now model (hist ++ [userMessage userText]) MAX_TOOL_ROUNDS).hist := by
  simp only [runTurnCLI]
  cases (toolLoop now model (hist ++ [userMessage userText]) MAX_TOOL_ROUNDS).result <;> rfl

theorem runTurnCLI_rounds (now : PyDateTime) (model : ModelFn)
    (hist : List Message) (userText : String) :
    (runTurnCLI now model hist userText).rounds =
      (toolLoop now model (hist ++ [userMessage userText]) MAX_TOOL_ROUNDS).rounds := by
  simp only [runTurnCLI]
  cases (toolLoop now model (hist ++ [userMessage userText]) MAX_TOOL_ROUNDS).result <;> rfl

theorem runTurnCLI_danglingFree (now : PyDateTime) (model : ModelFn)
    (hG : GoodModel model) (hist : List Message) (userText : String)
    (hh : danglingFreeB hist = true) :
    (runTurnCLI now model hist userText).calls.all danglingFreeB = true ∧
      danglingFreeB (runTurnCLI now model hist userText).hist = true := by
  have hh1 : danglingFreeB (hist ++ [userMessage userText]) = true :=
    danglingFreeB_append hist [userMessage userText] hh
      (danglingFreeB_noCalls [userMessage userText] (by intro m hm; simp at hm; rw [hm]; rfl))
  obtain ⟨hc, hhf⟩ := toolLoop_danglingFree now model hG MAX_TOOL_ROUNDS
    (hist ++ [userMessage userText]) hh1
  rw [runTurnCLI_calls, runTurnCLI_hist]
  exact ⟨hc, hhf⟩

theorem chatStep_danglingFree (now : PyDateTime) (model : ModelFn)
    (hG : GoodModel model) (hist : List Message) (input : String)
    (hh : danglingFreeB hist = true) :
    (chatStep now model hist input).calls.all danglingFreeB = true ∧
      danglingFreeB (chatStep now model hist input).hist = true := by
  unfold chatStep
  by_cases he : pyLower input = "exit"
  · simp [he, hh]
  · obtain ⟨h1, h2⟩ := runTurnCLI_danglingFree now model hG hist input hh
    simp [he, h1, h2]

theorem runSession_danglingFree (now : PyDateTime) (model : ModelFn)
    (hG : GoodModel model) :
    ∀ (inputs : List String) (hist : List Message), danglingFreeB hist = true →
      (runSession now model hist inputs).calls.all danglingFreeB = true := by
  intro inputs
  induction inputs with
  | nil => intro hist _; rfl
  | cons input rest ih =>
    intro hist hh
    obtain ⟨hc, hhf⟩ := chatStep_danglingFree now model hG hist input hh
    cases ht : (chatStep now model hist input).terminated with
    | true => simp [runSession, ht]
    | false =>
      have := ih (chatStep now model hist input).hist hhf
      simp only [runSession, ht, Bool.false_eq_true, if_false]
      rw [List.all_append]
      rw [hc, this]
      rfl

/-! ## Pipeline invariant (barge-in reset) -/

structure PipeInv (s : PipeState) : Prop where
  frames_sorted : (frameTurns s).Pairwise (· ≤ ·)
  session_dom : ∀ k, s.ttsSession = some k → ∀ t ∈ frameTurns s, t ≤ k
  ttsq_dom_frames : ∀ j ∈ ttsQTurns s, ∀ t ∈ frameTurns s, t ≤ j
  ttsq_dom_session : ∀ j ∈ ttsQTurns s, ∀ k, s.ttsSession = some k → k ≤ j
  ttsq_sorted : (ttsQTurns s).Pairwise (· ≤ ·)
  busy_dom : ∀ k, s.procBusy = some k → ∀ u ∈ downstreamTurns s, u < k
  pending_dom : ∀ p ∈ s.pending,
    (∀ u ∈ downstreamTurns s, u < p) ∧ ∀ k, s.procBusy = some k → k < p
  pending_sorted : s.pending.Pairwise (· < ·)

theorem pipeInv_init (n : Nat) : PipeInv (pipeInit n) := by
  constructor <;>
    simp [pipeInit, frameTurns, ttsQTurns, sessionList, downstreamTurns, List.pairwise_lt_range]

theorem pipeInv_of_eq (s s' : PipeState)
    (hfr : frameTurns s' = frameTurns s)
    (htq : ttsQTurns s' = ttsQTurns s)
    (hsl : s'.ttsSession = s.ttsSession)
    (hpb : s'.procBusy = s.procBusy)
    (hpd : s'.pending = s.pending)
    (hI : PipeInv s) : PipeInv s' := by
  have hds : downstreamTurns s' = downstreamTurns s := by
    simp [downstreamTurns, hfr, htq, sessionList, hsl]
  constructor
  · rw [hfr]; exact hI.frames_sorted
  · rw [hsl, hfr]; exact hI.session_dom
  · rw [htq, hfr]; exact hI.ttsq_dom_frames
  · rw [htq, hsl]; exact hI.ttsq_dom_session
  · rw [htq]; exact hI.ttsq_sorted
  · rw [hpb, hds]; exact hI.busy_dom
  · rw [hpd, hds, hpb]; exact hI.pending_dom
  · rw [hpd]; exact hI.pending_sorted

theorem pipeInv_step (s s' : PipeState) (hI : PipeInv s) (hstep : PipeStep s s') :
    PipeInv s' := by
  cases hstep with
  | accept k rest hp hb =>
    have hkmem : k ∈ s.pending := by rw [hp]; exact List.mem_cons_self k rest
    have hfr : frameTurns (acceptState s k rest) = s.played.map Prod.fst := by
      simp [frameTurns, acceptState]
    have hfrsub : ∀ t ∈ frameTurns (acceptState s k rest), t ∈ frameTurns s := by
      intro t ht
      rw [hfr] at ht
      simp only [frameTurns, List.map_append, List.mem_append]
      exact Or.inl ht
    constructor
    · rw [hfr]
      have : List.Sublist (s.played.map Prod.fst) (frameTurns s) := by
        simp only [frameTurns, List.map_append]
        exact List.sublist_append_left _ _
      exact hI.frames_sorted.sublist this
    · intro m hm t ht
      exact hI.session_dom m hm t (hfrsub t ht)
    · intro j hj
      simp [ttsQTurns, acceptState] at hj
    · intro j hj
      simp [ttsQTurns, acceptState] at hj
    · simp [ttsQTurns, acceptState]
    · intro m hm u hu
      have hmk : k = m := by
        simpa [acceptState] using hm
      rw [← hmk]
      apply (hI.pending_dom k hkmem).1
      simp only [downstreamTurns, List.mem_append] at hu ⊢
      rcases hu with (hu | hu) | hu
      · exact Or.inl (Or.inl (hfrsub u hu))
      · simp [ttsQTurns, acceptState] at hu
      · simp only [sessionList, acceptState] at hu
        exact Or.inr hu
    · intro p hpmem
      have hpmem2 : p ∈ s.pending := by
        rw [hp]; exact List.mem_cons_of_mem k hpmem
      constructor
      · intro u hu
        apply (hI.pending_dom p hpmem2).1
        simp only [downstreamTurns, List.mem_append] at hu ⊢
        rcases hu with (hu | hu) | hu
        · exact Or.inl (Or.inl (hfrsub u hu))
        · simp [ttsQTurns, acceptState] at hu
        · simp only [sessionList, acceptState] at hu
          exact Or.inr hu
      · intro m hm
        have hmk : k = m := by simpa [acceptState] using hm
        subst hmk
        have := hI.pending_sorted
        rw [hp] at this
        exact (List.pairwise_cons.mp this).1 p hpmem
    · have := hI.pending_sorted
      rw [hp] at this
      exact (List.pairwise_cons.mp this).2
  | finishTurn k hb =>
    have hdom : ∀ u ∈ downstreamTurns s, u < k := hI.busy_dom k hb
    have hfr : frameTurns { s with ttsQ := s.ttsQ ++ [some k, none], procBusy := none }
        = frameTurns s := rfl
    have htq : ttsQTurns { s with ttsQ := s.ttsQ ++ [some k, none], procBusy := none }
        = ttsQTurns s ++ [k] := by
      simp [ttsQTurns]
    constructor
    · rw [hfr]; exact hI.frames_sorted
    · intro m hm t ht
      exact hI.session_dom m hm t ht
    · intro j hj t ht
      rw [htq] at hj
      rcases List.mem_append.mp hj with hj | hj
      · exact hI.ttsq_dom_frames j hj t ht
      · have hjk : j = k := by simpa using hj
        rw [hjk]
        exact le_of_lt (hdom t (by
          simp only [downstreamTurns, List.mem_append]
          exact Or.inl (Or.inl ht)))
    · intro j hj m hm
      rw [htq] at hj
      rcases List.mem_append.mp hj with hj | hj
      · exact hI.ttsq_dom_session j hj m hm
      · have hjk : j = k := by simpa using hj
        have hm2 : s.ttsSession = some m := hm
        rw [hjk]
        refine le_of_lt (hdom m ?_)
        simp [downstreamTurns, sessionList, hm2]
    · rw [htq]
      rw [List.pairwise_append]
      refine ⟨hI.ttsq_sorted, by simp, ?_⟩
      intro a ha b hbm
      have hbk : b = k := by simpa using hbm
      rw [hbk]
      refine le_of_lt (hdom a ?_)
      simp only [downstreamTurns, List.mem_append]
      exact Or.inl (Or.inr ha)
    · intro m hm
      exact absurd hm (by simp)
    · intro p hpmem
      refine ⟨?_, by intro m hm; exact absurd hm (by simp)⟩
      intro u hu
      simp only [downstreamTurns, List.mem_append, htq, hfr] at hu
      have hps := hI.pending_dom p hpmem
      rcases hu with (hu | hu) | hu
      · exact hps.1 u (by simp only [downstreamTurns, List.mem_append]; exact Or.inl (Or.inl hu))
      · rcases hu with hu | hu
        · exact hps.1 u (by simp only [downstreamTurns, List.mem_append]; exact Or.inl (Or.inr hu))
        · have huk : u = k := by simpa using hu
          rw [huk]
          exact hps.2 k hb
      · exact hps.1 u (by
          simp only [downstreamTurns, List.mem_append, sessionList] at hu ⊢
          exact Or.inr hu)
    · exact hI.pending_sorted
  | finishTurnError k hb =>
    constructor
    · exact hI.frames_sorted
    · exact hI.session_dom
    · exact hI.ttsq_dom_frames
    · exact hI.ttsq_dom_session
    · exact hI.ttsq_sorted
    · intro m hm
      exact absurd hm (by simp)
    · intro p hpmem
      exact ⟨(hI.pending_dom p hpmem).1, by intro m hm; exact absurd hm (by simp)⟩
    · exact hI.pending_sorted
  | ttsTakeText k rest hs hq =>
    have hkq : ttsQTurns s = k :: rest.filterMap id := by
      simp [ttsQTurns, hq]
    have hkmem : k ∈ ttsQTurns s := by rw [hkq]; exact List.mem_cons_self _ _
    have htq : ttsQTurns { s with ttsQ := rest, ttsSession := some k, emitCount := 0 }
        = rest.filterMap id := rfl
    have hsub : ∀ j ∈ rest.filterMap id, j ∈ ttsQTurns s := by
      intro j hj; rw [hkq]; exact List.mem_cons_of_mem _ hj
    constructor
    · exact hI.frames_sorted
    · intro m hm t ht
      have hkm : k = m := by simpa using hm
      subst hkm
      exact hI.ttsq_dom_frames k hkmem t ht
    · intro j hj t ht
      exact hI.ttsq_dom_frames j (hsub j hj) t ht
    · intro j hj m hm
      have hkm : k = m := by simpa using hm
      subst hkm
      have := hI.ttsq_sorted
      rw [hkq] at this
      exact (List.pairwise_cons.mp this).1 j hj
    · have := hI.ttsq_sorted
      rw [hkq] at this
      exact (List.pairwise_cons.mp this).2
    · intro m hm u hu
      have hm2 : s.procBusy = some m := hm
      apply hI.busy_dom m hm2
      simp only [downstreamTurns, List.mem_append, sessionList] at hu ⊢
      rcases hu with (hu | hu) | hu
      · exact Or.inl (Or.inl hu)
      · exact Or.inl (Or.inr (hsub u hu))
      · simp at hu
        rw [hu]
        exact Or.inl (Or.inr hkmem)
    · intro p hpmem
      have hps := hI.pending_dom p hpmem
      refine ⟨?_, hps.2⟩
      intro u hu
      apply hps.1
      simp only [downstreamTurns, List.mem_append, sessionList] at hu ⊢
      rcases hu with (hu | hu) | hu
      · exact Or.inl (Or.inl hu)
      · exact Or.inl (Or.inr (hsub u hu))
      · simp at hu
        rw [hu]
        exact Or.inl (Or.inr hkmem)
    · exact hI.pending_sorted
  | ttsTakeNone rest hs hq =>
    refine pipeInv_of_eq s _ rfl ?_ rfl rfl rfl hI
    simp [ttsQTurns, hq]
  | ttsEmit k hs =>
    have hfr : frameTurns
        { s with
          audioQ := s.audioQ ++ [(k, s.emitCount)]
          emitCount := s.emitCount + 1 } = frameTurns s ++ [k] := by
      simp [frameTurns]
    have hkses : k ∈ sessionList s := by simp [sessionList, hs]
    constructor
    · rw [hfr, List.pairwise_append]
      refine ⟨hI.frames_sorted, by simp, ?_⟩
      intro a ha b hbm
      have hbk : b = k := by simpa using hbm
      rw [hbk]
      exact hI.session_dom k hs a ha
    · intro m hm t ht
      have hm2 : s.ttsSession = some m := hm
      rw [hfr] at ht
      rcases List.mem_append.mp ht with ht2 | ht2
      · exact hI.session_dom m hm2 t ht2
      · have htk : t = k := by simpa using ht2
        have hkm : k = m := by
          have h3 := hm2
          rw [hs] at h3
          exact Option.some.inj h3
        rw [htk, hkm]
    · intro j hj t ht
      rw [hfr] at ht
      rcases List.mem_append.mp ht with ht | ht
      · exact hI.ttsq_dom_frames j hj t ht
      · have htk : t = k := by simpa using ht
        rw [htk]
        exact hI.ttsq_dom_session j hj k hs
    · intro j hj m hm
      exact hI.ttsq_dom_session j hj m hm
    · exact hI.ttsq_sorted
    · intro m hm u hu
      have hm2 : s.procBusy = some m := hm
      simp only [downstreamTurns, List.mem_append, hfr] at hu
      rcases hu with (hu | hu) | hu
      · rcases hu with hu | hu
        · exact hI.busy_dom m hm2 u (by
            simp only [downstreamTurns, List.mem_append]; exact Or.inl (Or.inl hu))
        · have huk : u = k := by simpa using hu
          rw [huk]
          exact hI.busy_dom m hm2 k (by
            simp only [downstreamTurns, List.mem_append]; exact Or.inr hkses)
      · exact hI.busy_dom m hm2 u (by
          simp only [downstreamTurns, List.mem_append, ttsQTurns] at hu ⊢
          exact Or.inl (Or.inr hu))
      · exact hI.busy_dom m hm2 u (by
          simp only [downstreamTurns, List.mem_append, sessionList] at hu ⊢
          exact Or.inr hu)
    · intro p hpmem
      have hps := hI.pending_dom p hpmem
      refine ⟨?_, hps.2⟩
      intro u hu
      simp only [downstreamTurns, List.mem_append, hfr] at hu
      rcases hu with (hu | hu) | hu
      · rcases hu with hu | hu
        · exact hps.1 u (by
            simp only [downstreamTurns, List.mem_append]; exact Or.inl (Or.inl hu))
        · have huk : u = k := by simpa using hu
          rw [huk]
          exact hps.1 k (by
            simp only [downstreamTurns, List.mem_append]; exact Or.inr hkses)
      · exact hps.1 u (by
          simp only [downstreamTurns, List.mem_append, ttsQTurns] at hu ⊢
          exact Or.inl (Or.inr hu))
      · exact hps.1 u (by
          simp only [downstreamTurns, List.mem_append, sessionList] at hu ⊢
          exact Or.inr hu)
    · exact hI.pending_sorted
  | ttsFinish k hs =>
    constructor
    · exact hI.frames_sorted
    · intro m hm
      exact absurd hm (by simp)
    · exact hI.ttsq_dom_frames
    · intro j hj m hm
      exact absurd hm (by simp)
    · exact hI.ttsq_sorted
    · intro m hm u hu
      have hm2 : s.procBusy = some m := hm
      apply hI.busy_dom m hm2
      simp only [downstreamTurns, List.mem_append, sessionList] at hu ⊢
      rcases hu with (hu | hu) | hu
      · exact Or.inl (Or.inl hu)
      · exact Or.inl (Or.inr hu)
      · simp at hu
    · intro p hpmem
      have hps := hI.pending_dom p hpmem
      refine ⟨?_, hps.2⟩
      intro u hu
      apply hps.1
      simp only [downstreamTurns, List.mem_append, sessionList] at hu ⊢
      rcases hu with (hu | hu) | hu
      · exact Or.inl (Or.inl hu)
      · exact Or.inl (Or.inr hu)
      · simp at hu
    · exact hI.pending_sorted
  | play f rest hq =>
    refine pipeInv_of_eq s _ ?_ rfl rfl rfl rfl hI
    simp [frameTurns, hq, List.append_assoc]

theorem pipeReach_inv (n : Nat) (s : PipeState) (h : PipeReach n s) : PipeInv s := by
  induction h with
  | init => exact pipeInv_init n
  | step s s' _ hstep ih => exact pipeInv_step s s' ih hstep

/-! ## Claim theorems -/

/-- C1 (counterexample): on the code as written, a tool-call request
naming an unregistered tool does NOT yield an appended tool-result
message with the loop continuing; instead the `ValueError` raised by the
dispatch escapes the tool loop.  Concretely, with a model requesting the
unknown tool `make_tea`, the CLI turn ends in the outer `except` arm with
no tool-role message in history, and the GUI turn likewise ends in its
`except` arm with no function-response content appended. -/
theorem claim_C1_counterexample :
    (runTurnCLI someNow bogusToolModel [] "hi").errored = true ∧
    (runTurnCLI someNow bogusToolModel [] "hi").delivered
      = "An error occurred: Unknown tool: make_tea" ∧
    (runTurnCLI someNow bogusToolModel [] "hi").hist
      = [userMessage "hi", bogusMsg] ∧
    bogusMsg.tool_calls.length = 1 ∧
    ((runTurnCLI someNow bogusToolModel [] "hi").hist.filter
      (fun m => m.role == Role.tool)) = [] ∧
    (processTurnMain someNow gBogusModel [] "hi").errored = true ∧
    (processTurnMain someNow gBogusModel [] "hi").emitted
      = "Error generating response: Unknown tool: make_tea" ∧
    (processTurnMain someNow gBogusModel [] "hi").hist
      = [gUserContent "hi", gBogusContent] :=
  ⟨rfl, rfl, rfl, rfl, rfl, rfl, rfl, rfl⟩

/-- C1 (amended): a tool-call request naming a tool not in the registry
makes the dispatch raise; the exception propagates out of the tool loop
(aborting the turn with no tool-result message appended for the request)
and is converted to an error line only by the outer per-turn handler, in
both the CLI and the GUI variant. -/
theorem claim_C1_theorem :
    (∀ (now : PyDateTime) (model : ModelFn) (hist : List Message)
        (userText : String) (msg : Message) (tc : ToolCallReq)
        (args : List (String × String)),
      model (hist ++ [userMessage userText]) = .ok msg →
      msg.tool_calls = [tc] →
      (tc.name == "get_current_datetime") = false →
      jsonLoads (if tc.arguments = "" then "\x7b\x7d" else tc.arguments) = some args →
      (runTurnCLI now model hist userText).errored = true ∧
      (runTurnCLI now model hist userText).delivered
        = "An error occurred: " ++ ("Unknown tool: " ++ tc.name) ∧
      (runTurnCLI now model hist userText).hist
        = hist ++ [userMessage userText, msg] ∧
      (runTurnCLI now model hist userText).invocations = 0) ∧
    (∀ (now : PyDateTime) (gmodel : GModelFn) (hist : List GContent)
        (text : String) (content : GContent) (fc : FunctionCall),
      gmodel (hist ++ [gUserContent text]) = .ok content →
      gFunctionCalls content.parts = [fc] →
      (fc.name == "get_today_date") = false →
      (processTurnMain now gmodel hist text).errored = true ∧
      (processTurnMain now gmodel hist text).emitted
        = "Error generating response: " ++ ("Unknown tool: " ++ fc.name) ∧
      (processTurnMain now gmodel hist text).hist
        = hist ++ [gUserContent text, content]) := by
  constructor
  · intro now model hist userText msg tc args h1 h2 h3 h4
    have hloop : toolLoop now model (hist ++ [userMessage userText]) MAX_TOOL_ROUNDS
        = ⟨(hist ++ [userMessage userText]) ++ [msg],
            .error ("Unknown tool: " ++ tc.name), 1, 0,
            [hist ++ [userMessage userText]]⟩ := by
      simp [MAX_TOOL_ROUNDS, toolLoop, h1, h2, execToolCalls, h4, dispatch_tool, h3]
    simp [runTurnCLI, hloop, List.append_assoc]
  · intro now gmodel hist text content fc h1 h2 h3
    have hloop : gLoop now gmodel (hist ++ [gUserContent text]) 3
        = ⟨(hist ++ [gUserContent text]) ++ [content],
            .error ("Unknown tool: " ++ fc.name), 1, 0⟩ := by
      simp [gLoop, h1, h2, gExecTools, main_dispatch_tool, h3]
    simp [processTurnMain, hloop, List.append_assoc]

/-- C1 (witness): the amended statement at the concrete bad models. -/
theorem claim_C1_witness :
    (runTurnCLI someNow bogusToolModel [] "tea").errored = true ∧
    (runTurnCLI someNow bogusToolModel [] "tea").delivered
      = "An error occurred: " ++ ("Unknown tool: " ++ "make_tea") ∧
    (runTurnCLI someNow bogusToolModel [] "tea").hist
      = [] ++ [userMessage "tea", bogusMsg] ∧
    (runTurnCLI someNow bogusToolModel [] "tea").invocations = 0 :=
  claim_C1_theorem.1 someNow bogusToolModel [] "tea" bogusMsg
    ⟨"call_9", "make_tea", "\x7b\x7d"⟩ [] rfl rfl (by decide) (by decide)

/-- C2 (counterexample): a model that returns a tool-call request on
every round but names an unregistered tool makes the turn terminate
after 1 round with an error line, not after 3 rounds with the fallback
string — refuting the claim as stated for arbitrary always-tool models. -/
theorem claim_C2_counterexample :
    (runTurnCLI someNow bogusToolModel [] "loop").rounds = 1 ∧
    (runTurnCLI someNow bogusToolModel [] "loop").errored = true ∧
    (runTurnCLI someNow bogusToolModel [] "loop").delivered ≠ cliFallback := by
  refine ⟨rfl, rfl, by decide⟩

/-- C2 (amended): the loop never exceeds `MAX_TOOL_ROUNDS` (3) model
calls; and for any model that on every call requests only registered
tool calls with parseable arguments, the turn runs exactly 3 rounds and
delivers the fixed fallback string, not an error. -/
theorem claim_C2_theorem :
    (∀ (now : PyDateTime) (model : ModelFn) (hist : List Message)
        (userText : String),
      (runTurnCLI now model hist userText).rounds ≤ MAX_TOOL_ROUNDS) ∧
    (∀ (now : PyDateTime) (model : ModelFn) (hist : List Message)
        (userText : String),
      AlwaysToolModel model →
      (runTurnCLI now model hist userText).rounds = MAX_TOOL_ROUNDS ∧
      (runTurnCLI now model hist userText).delivered = cliFallback ∧
      (runTurnCLI now model hist userText).errored = false) := by
  constructor
  · intro now model hist userText
    rw [runTurnCLI_rounds]
    exact toolLoop_rounds_le now model MAX_TOOL_ROUNDS (hist ++ [userMessage userText])
  · intro now model hist userText hA
    obtain ⟨hres, hrounds, _⟩ :=
      toolLoop_always now model hA MAX_TOOL_ROUNDS (hist ++ [userMessage userText])
    refine ⟨?_, ?_, ?_⟩
    · rw [runTurnCLI_rounds, hrounds]
    · simp only [runTurnCLI, hres]
      simp [cliFallback]
    · simp only [runTurnCLI, hres]

/-- C2 (witness): the amended statement at a concrete always-tool model. -/
theorem claim_C2_witness :
    (runTurnCLI someNow alwaysToolModel [] "ping").rounds = MAX_TOOL_ROUNDS ∧
    (runTurnCLI someNow alwaysToolModel [] "ping").delivered = cliFallback ∧
    (runTurnCLI someNow alwaysToolModel [] "ping").errored = false :=
  claim_C2_theorem.2 someNow alwaysToolModel [] "ping"
    (fun _ => ⟨alwaysToolMsg, rfl, by decide, by decide⟩)

/-- C3 (counterexample): after a turn aborted by an unknown-tool
exception, the history carried into the next turn still holds the
assistant message with its unanswered tool-call request, so the next
model call receives a history with a dangling tool call: the second
entry of the model-call log of the session violates pairing. -/
theorem claim_C3_counterexample :
    (runSession someNow bogusToolModel [cliSystemMessage] ["a", "b"]).calls.length = 2 ∧
    danglingFreeB ((runSession someNow bogusToolModel [cliSystemMessage]
      ["a", "b"]).calls.getD 1 []) = false :=
  ⟨rfl, rfl⟩

/-- C3 (amended): at every model call of a session, the history contains
no dangling tool-call request, provided every tool dispatch of the
session succeeds (registered names, parseable arguments); a turn aborted
by a dispatch exception can leave a dangling request that the next model
call then receives. -/
theorem claim_C3_theorem (now : PyDateTime) (model : ModelFn)
    (hG : GoodModel model) (inputs : List String) (hist : List Message)
    (hh : danglingFreeB hist = true) :
    (runSession now model hist inputs).calls.all danglingFreeB = true :=
  runSession_danglingFree now model hG inputs hist hh

/-- C3 (witness): the amended statement at a concrete good model. -/
theorem claim_C3_witness :
    (runSession someNow alwaysToolModel [cliSystemMessage] ["a"]).calls.all
      danglingFreeB = true :=
  claim_C3_theorem someNow alwaysToolModel
    (by
      intro h msg hm tc htc
      have hmsg : msg = alwaysToolMsg := (Except.ok.inj hm).symm
      rw [hmsg] at htc
      simp only [alwaysToolMsg, List.mem_singleton] at htc
      rw [htc]
      decide)
    ["a"] [cliSystemMessage] (by decide)

/-- C4 (counterexample): a first response with zero tool calls and
content `" hi "` yields the delivered text `"hi"` — the text is stripped,
not returned unmodified (the 2-message append does hold). -/
theorem claim_C4_counterexample :
    spacedModel ([] ++ [userMessage "q"]) = .ok spacedMsg ∧
    spacedMsg.tool_calls = [] ∧
    spacedMsg.content = some " hi " ∧
    (runTurnCLI someNow spacedModel [] "q").hist = [userMessage "q", spacedMsg] ∧
    (runTurnCLI someNow spacedModel [] "q").delivered = "hi" ∧
    (runTurnCLI someNow spacedModel [] "q").delivered ≠ " hi " := by
  refine ⟨rfl, rfl, rfl, rfl, rfl, by decide⟩

/-- C4 (amended): for a first response with zero tool-call requests, the
turn appends exactly two messages (user, assistant), makes one model
call, and delivers the response text stripped of surrounding whitespace
(the fallback string when the stripped text is empty). -/
theorem claim_C4_theorem (now : PyDateTime) (model : ModelFn)
    (hist : List Message) (userText : String) (msg : Message)
    (h1 : model (hist ++ [userMessage userText]) = .ok msg)
    (h2 : msg.tool_calls = []) :
    (runTurnCLI now model hist userText).hist
      = hist ++ [userMessage userText, msg] ∧
    (runTurnCLI now model hist userText).delivered
      = (if pyStrip (msg.content.getD "") = "" then cliFallback
          else pyStrip (msg.content.getD "")) ∧
    (runTurnCLI now model hist userText).rounds = 1 ∧
    (runTurnCLI now model hist userText).errored = false := by
  have hloop : toolLoop now model (hist ++ [userMessage userText]) MAX_TOOL_ROUNDS
      = ⟨(hist ++ [userMessage userText]) ++ [msg],
          .ok (some (pyStrip (msg.content.getD ""))), 1, 0,
          [hist ++ [userMessage userText]]⟩ := by
    simp [MAX_TOOL_ROUNDS, toolLoop, h1, h2]
  by_cases hs : pyStrip (msg.content.getD "") = ""
  · simp [runTurnCLI, hloop, hs, List.append_assoc]
  · simp [runTurnCLI, hloop, hs, List.append_assoc]

/-- C4 (witness): the amended statement at the concrete fixture. -/
theorem claim_C4_witness :
    (runTurnCLI someNow spacedModel [] "q").hist
      = [] ++ [userMessage "q", spacedMsg] ∧
    (runTurnCLI someNow spacedModel [] "q").delivered
      = (if pyStrip (spacedMsg.content.getD "") = "" then cliFallback
          else pyStrip (spacedMsg.content.getD "")) ∧
    (runTurnCLI someNow spacedModel [] "q").rounds = 1 ∧
    (runTurnCLI someNow spacedModel [] "q").errored = false :=
  claim_C4_theorem someNow spacedModel [] "q" spacedMsg rfl rfl

theorem take_length_append (l t : List Message) : (l ++ t).take l.length = l := by
  simp

/-- C5 (counterexample): with one tool-call request naming an
unregistered tool, zero tool-result messages are appended — the count of
appended results does not equal the count of requests. -/
theorem claim_C5_counterexample :
    bogusToolModel ([] ++ [userMessage "hello"]) = .ok bogusMsg ∧
    bogusMsg.tool_calls.length = 1 ∧
    ((runTurnCLI someNow bogusToolModel [] "hello").hist.filter
      (fun m => m.role == Role.tool)).length = 0 :=
  ⟨rfl, rfl, rfl⟩

/-- C5 (amended): when every requested tool is registered and its
argument string parses, the messages appended right after the assistant
message are exactly one tool-result per request, in request order, each
carrying the correlation id of its request (`tool_call_id := tc.id`); the GUI
variant instead correlates its function responses by function name. -/
theorem toolLoop_round_known (now : PyDateTime) (model : ModelFn)
    (hist : List Message) (fuel : Nat) (msg : Message)
    (h1 : model hist = .ok msg)
    (h2 : msg.tool_calls ≠ [])
    (h3 : ∀ tc ∈ msg.tool_calls, goodToolCall tc = true) :
    (toolLoop now model hist (fuel + 1)).hist
      = (toolLoop now model ((hist ++ [msg]) ++ msg.tool_calls.map (fun tc =>
          toolResultMessage tc.id (jsonDumps (get_current_datetime now)))) fuel).hist := by
  have hisE : msg.tool_calls.isEmpty = false := by
    cases hmt : msg.tool_calls with
    | nil => exact absurd hmt h2
    | cons a l => rfl
  have hexec := execToolCalls_good now msg.tool_calls (hist ++ [msg]) h3
  simp only [toolLoop, h1, hisE, Bool.false_eq_true, if_false, hexec]

theorem claim_C5_theorem (now : PyDateTime) (model : ModelFn)
    (hist : List Message) (userText : String) (msg : Message)
    (h1 : model (hist ++ [userMessage userText]) = .ok msg)
    (h2 : msg.tool_calls ≠ [])
    (h3 : ∀ tc ∈ msg.tool_calls, goodToolCall tc = true) :
    (runTurnCLI now model hist userText).hist.take
        (hist.length + 2 + msg.tool_calls.length)
      = hist ++ [userMessage userText, msg] ++ msg.tool_calls.map (fun tc =>
          toolResultMessage tc.id (jsonDumps (get_current_datetime now))) := by
  have hstep := toolLoop_round_known now model (hist ++ [userMessage userText]) 2
    msg h1 h2 h3
  obtain ⟨t, ht⟩ := toolLoop_extend now model 2
    (((hist ++ [userMessage userText]) ++ [msg]) ++ msg.tool_calls.map (fun tc =>
      toolResultMessage tc.id (jsonDumps (get_current_datetime now))))
  have hloophist : (toolLoop now model (hist ++ [userMessage userText]) MAX_TOOL_ROUNDS).hist
      = (hist ++ [userMessage userText, msg] ++ msg.tool_calls.map (fun tc =>
          toolResultMessage tc.id (jsonDumps (get_current_datetime now)))) ++ t := by
    rw [show MAX_TOOL_ROUNDS = 2 + 1 from rfl, hstep]
    simp only [List.append_assoc] at ht ⊢
    simpa using ht
  have hQlen : (hist ++ [userMessage userText, msg] ++ msg.tool_calls.map (fun tc =>
      toolResultMessage tc.id (jsonDumps (get_current_datetime now)))).length
      = hist.length + 2 + msg.tool_calls.length := by
    simp [List.length_append]
    omega
  rw [runTurnCLI_hist, hloophist, ← hQlen, take_length_append]

/-- C5 (witness): the amended statement at a concrete model. -/
theorem claim_C5_witness :
    (runTurnCLI someNow alwaysToolModel [] "x").hist.take
        (List.length ([] : List Message) + 2 + alwaysToolMsg.tool_calls.length)
      = [] ++ [userMessage "x", alwaysToolMsg] ++ alwaysToolMsg.tool_calls.map (fun tc =>
          toolResultMessage tc.id (jsonDumps (get_current_datetime someNow))) :=
  claim_C5_theorem someNow alwaysToolModel [] "x" alwaysToolMsg rfl (by decide) (by decide)

/-- C6 (counterexample): in the teatime scenario the final answer and the
single tool invocation are as claimed, but the history excluding the
system seed has length 4, not 5 (it is 5 only with the seed included). -/
theorem claim_C6_counterexample :
    (runTurnCLI someNow teatimeModel [cliSystemMessage] "What time is it?").delivered
      = "It\x27s teatime, Sir." ∧
    (runTurnCLI someNow teatimeModel [cliSystemMessage] "What time is it?").invocations = 1 ∧
    ((runTurnCLI someNow teatimeModel [cliSystemMessage] "What time is it?").hist.filter
      (fun m => !(m.role == Role.system))).length ≠ 5 := by
  refine ⟨rfl, rfl, by decide⟩

/-- C6 (amended): the teatime scenario delivers the teatime answer
with exactly one tool invocation and two model calls; the resulting
history is system seed, user message, assistant tool-call message, tool
result, final assistant message — length 4 excluding the seed (5 with
it). -/
theorem claim_C6_theorem :
    (runTurnCLI someNow teatimeModel [cliSystemMessage] "What time is it?").delivered
      = "It\x27s teatime, Sir." ∧
    (runTurnCLI someNow teatimeModel [cliSystemMessage] "What time is it?").invocations = 1 ∧
    (runTurnCLI someNow teatimeModel [cliSystemMessage] "What time is it?").rounds = 2 ∧
    (runTurnCLI someNow teatimeModel [cliSystemMessage] "What time is it?").hist
      = [cliSystemMessage, userMessage "What time is it?", dateToolCallMsg,
          toolResultMessage "call_1" (jsonDumps (get_current_datetime someNow)),
          teatimeMsg] ∧
    ((runTurnCLI someNow teatimeModel [cliSystemMessage] "What time is it?").hist.filter
      (fun m => !(m.role == Role.system))).length = 4 := by
  refine ⟨rfl, rfl, rfl, rfl, by decide⟩

/-- C7: in the pipeline transition system, accepting a new submission
drains the playback queue atomically (the post-accept audio queue is
empty), no frame of the newly accepted turn exists anywhere downstream at
that point (so the drain precedes every frame the new turn will enqueue),
and in every reachable state the sequence of played frames is sorted by
turn — a frame of an abandoned earlier turn is never played after a frame
of a later turn. -/
theorem claim_C7_theorem (n : Nat) (s : PipeState) (k : Nat) (rest : List Nat)
    (hr : PipeReach n s) (hp : s.pending = k :: rest) (hb : s.procBusy = none) :
    ((acceptState s k rest).audioQ = [] ∧
      (∀ t ∈ frameTurns (acceptState s k rest), t < k) ∧
      PipeStep s (acceptState s k rest)) ∧
    (∀ (m : Nat) (s2 : PipeState), PipeReach m s2 →
      (s2.played.map Prod.fst).Pairwise (· ≤ ·)) := by
  constructor
  · have hstep : PipeStep s (acceptState s k rest) := PipeStep.accept s k rest hp hb
    have hI2 : PipeInv (acceptState s k rest) :=
      pipeInv_step s _ (pipeReach_inv n s hr) hstep
    refine ⟨rfl, ?_, hstep⟩
    intro t ht
    refine hI2.busy_dom k (by simp [acceptState]) t ?_
    simp only [downstreamTurns, List.mem_append]
    exact Or.inl (Or.inl ht)
  · intro m s2 hr2
    have hI2 := pipeReach_inv m s2 hr2
    have hsub : List.Sublist (s2.played.map Prod.fst) (frameTurns s2) := by
      simp only [frameTurns, List.map_append]
      exact List.sublist_append_left _ _
    exact hI2.frames_sorted.sublist hsub

/-- C7 (witness): the first conjunct at the initial state with one
pending submission. -/
theorem claim_C7_witness : (acceptState (pipeInit 1) 0 []).audioQ = [] :=
  ((claim_C7_theorem 1 (pipeInit 1) 0 [] PipeReach.init rfl rfl).1).1

/-- C8: for every submitted turn, the text delivered to the interface is
non-empty, in both variants: the stripped model text when non-empty, the
fixed fallback string when the model text strips to empty or the round
bound is exhausted, and a non-empty error line when an exception reaches
the per-turn handler. -/
theorem claim_C8_theorem :
    (∀ (now : PyDateTime) (model : ModelFn) (hist : List Message)
        (userText : String),
      (runTurnCLI now model hist userText).delivered ≠ "") ∧
    (∀ (now : PyDateTime) (gmodel : GModelFn) (hist : List GContent)
        (text : String),
      (processTurnMain now gmodel hist text).emitted ≠ "") := by
  constructor
  · intro now model hist userText
    simp only [runTurnCLI]
    cases (toolLoop now model (hist ++ [userMessage userText]) MAX_TOOL_ROUNDS).result with
    | error e =>
      exact string_append_ne_empty "An error occurred: " e (by decide)
    | ok ft =>
      by_cases hft : ft.getD "" = ""
      · simp only [hft, if_true]
        decide
      · simp only [hft, if_false]
        exact hft
  · intro now gmodel hist text
    simp only [processTurnMain]
    cases (gLoop now gmodel (hist ++ [gUserContent text]) 3).result with
    | error e =>
      exact string_append_ne_empty "Error generating response: " e (by decide)
    | ok ft =>
      by_cases hft : ft.getD "" = ""
      · simp only [hft, if_true]
        decide
      · simp only [hft, if_false]
        exact hft

/-- C9 (counterexample): a payload with a key other than the declared
`timezone` parameter makes the `**`-application of `get_today_date`
raise `TypeError` instead of returning a mapping. -/
theorem claim_C9_counterexample :
    call_get_today_date someNow [("units", "metric")] =
      .error "get_today_date() got an unexpected keyword argument" ∧
    main_dispatch_tool someNow "get_today_date" [("units", "metric")] =
      .error "get_today_date() got an unexpected keyword argument" :=
  ⟨rfl, rfl⟩

/-- C9 (amended): for every payload binding only the declared `timezone`
parameter, `get_today_date` returns a mapping with exactly the keys
`text`, `iso`, `timezone`, whose `timezone` value is always
`Asia/Jakarta` and which is independent of the payload; any other key
raises `TypeError`.  The CLI tool `get_current_datetime` takes no payload
and always returns those exact keys with `Asia/Jakarta`. -/
theorem claim_C9_theorem (now : PyDateTime) (args : List (String × String))
    (h : args.all (fun kv => kv.fst == "timezone") = true) :
    call_get_today_date now args = .ok (get_today_date now "Asia/Jakarta") ∧
    (get_today_date now "Asia/Jakarta").map Prod.fst = ["text", "iso", "timezone"] ∧
    (get_today_date now "Asia/Jakarta").lookup "timezone" = some "Asia/Jakarta" ∧
    (get_current_datetime now).map Prod.fst = ["text", "iso", "timezone"] ∧
    (get_current_datetime now).lookup "timezone" = some "Asia/Jakarta" := by
  refine ⟨?_, rfl, rfl, rfl, rfl⟩
  have hok : call_get_today_date now args
      = .ok (get_today_date now ((args.lookup "timezone").getD "Asia/Jakarta")) := by
    simp [call_get_today_date, h]
  rw [hok]
  rfl

/-- C9 (witness): the amended statement at a payload that specifies a
different timezone, which is ignored. -/
theorem claim_C9_witness :
    call_get_today_date someNow [("timezone", "UTC")] =
      .ok (get_today_date someNow "Asia/Jakarta") :=
  (claim_C9_theorem someNow [("timezone", "UTC")] (by decide)).1

/-- C10: an input that lower-cases to `"exit"` terminates the CLI session
loop immediately: no message is appended to history, no model call is
made, and nothing is printed for that input. -/
theorem claim_C10_theorem (now : PyDateTime) (model : ModelFn)
    (hist : List Message) (input : String)
    (h : pyLower input = "exit") :
    chatStep now model hist input = ⟨hist, true, 0, none, []⟩ := by
  simp [chatStep, h]

/-- C10 (witness): the statement at the concrete input `"Exit"`. -/
theorem claim_C10_witness :
    chatStep someNow bogusToolModel [cliSystemMessage] "Exit"
      = ⟨[cliSystemMessage], true, 0, none, []⟩ :=
  claim_C10_theorem someNow bogusToolModel [cliSystemMessage] "Exit" (by decide)
